import Mathlib

/-!
Shallow embedding of the HTML-to-Markdown plugin tool
(`tools/html_to_markdown.py`) and proofs about its conversion routines,
dispatcher and response formatter.

Strings are modelled as Lean `String` / `List Char`.  Calls into external
conversion libraries (trafilatura, markdownify, html2text, pypandoc,
BeautifulSoup tree operations) are modelled as environment parameters of
type `Except String _`, where `Except.error e` stands for the library call
raising an exception with text `e`.  All pre/post string cleanup that the
repository itself performs (the regex substitutions, entity decoding,
line filtering and whitespace collapsing) is modelled directly from the
source.
-/

namespace H2M

/-- The single-quote character, written via its code point. -/
def squote : Char := Char.ofNat 39

/-- Python `pat in s` on lists of characters: `pat` occurs as a contiguous
substring of `s`. -/
def containsList (pat : List Char) : List Char → Bool
  | [] => pat.isEmpty
  | c :: rest => pat.isPrefixOf (c :: rest) || containsList pat rest

/-- Python `pat in s` on strings. -/
def strContains (s pat : String) : Bool := containsList pat.data s.data

/-- Python `s.endswith(p)`. -/
def strEndsWith (s p : String) : Bool := p.data.isSuffixOf s.data

/-- Python `str.strip()` (both-ends whitespace strip). -/
def pyStrip (s : String) : String :=
  ⟨((s.data.dropWhile Char.isWhitespace).reverse.dropWhile Char.isWhitespace).reverse⟩

/-- Python `line.rstrip(" \\")`: drop trailing spaces and backslashes. -/
def rstripSB (s : String) : String :=
  ⟨(s.data.reverse.dropWhile (fun c => c = ' ' ∨ c = '\\')).reverse⟩

/-- Generic single-pass `re.sub`-style scanner.  `step s` decides whether a
match starts at the current position `s`; if so it returns the replacement
text together with the number `k ≥ 1` of consumed characters.  The `Nat`
argument is the number of already-consumed characters still to be skipped,
which keeps the recursion structural. -/
def scanAux (step : List Char → Option (List Char × Nat)) : Nat → List Char → List Char
  | _, [] => []
  | n + 1, _ :: rest => scanAux step n rest
  | 0, c :: rest =>
    match step (c :: rest) with
    | some (r, k) => r ++ scanAux step (k - 1) rest
    | none => c :: scanAux step 0 rest

/-- Run a `re.sub`-style scanner from the start of the text. -/
def runScan (step : List Char → Option (List Char × Nat)) (l : List Char) : List Char :=
  scanAux step 0 l

/-- Does `step` match at any position of `l`? -/
def existsMatch (step : List Char → Option (List Char × Nat)) : List Char → Bool
  | [] => false
  | c :: rest => (step (c :: rest)).isSome || existsMatch step rest

/-- Split at the first occurrence of `pat` (case-sensitive): returns the text
before the occurrence and the text after it. -/
def splitAtFirst (pat : List Char) : List Char → Option (List Char × List Char)
  | [] => none
  | c :: rest =>
    if pat.isPrefixOf (c :: rest) then some ([], (c :: rest).drop pat.length)
    else
      match splitAtFirst pat rest with
      | some (b, a) => some (c :: b, a)
      | none => none

/-- Case-insensitive prefix test (Python `re.IGNORECASE` on ASCII tags). -/
def ciPrefix : List Char → List Char → Bool
  | [], _ => true
  | _ :: _, [] => false
  | p :: ps, c :: cs => (p.toLower == c.toLower) && ciPrefix ps cs

/-- Split at the first case-insensitive occurrence of `pat`. -/
def ciSplitAtFirst (pat : List Char) : List Char → Option (List Char × List Char)
  | [] => none
  | c :: rest =>
    if ciPrefix pat (c :: rest) then some ([], (c :: rest).drop pat.length)
    else
      match ciSplitAtFirst pat rest with
      | some (b, a) => some (c :: b, a)
      | none => none

/-- Skip to just after the first `>` character; `none` if there is none. -/
def findGt : List Char → Option (List Char)
  | [] => none
  | c :: rest => if c = '>' then some rest else findGt rest

/-- Match of `<name[^>]*>` (case-insensitive) at the start of `s`: returns the
text just after the closing `>` of the opening tag. -/
def afterOpenTag (name : List Char) (s : List Char) : Option (List Char) :=
  if ciPrefix ('<' :: name) s then
    let rest := s.drop (name.length + 1)
    let run := rest.takeWhile (fun c => c ≠ '>')
    match rest.drop run.length with
    | c :: r => if c = '>' then some r else none
    | [] => none
  else none

/-- Step function of `re.sub(r'<name[^>]*>(.*?)</name>', repl, …, IGNORECASE |
DOTALL)`: the lazy group runs to the first closing tag; `mk` builds the
replacement from the captured group. -/
def tagPairStep (name : List Char) (mk : List Char → List Char) (s : List Char) :
    Option (List Char × Nat) :=
  match afterOpenTag name s with
  | some ao =>
    match ciSplitAtFirst ('<' :: '/' :: name ++ ['>']) ao with
    | some (g, r) => some (mk g, s.length - r.length)
    | none => none
  | none => none

/-- Step function of the alternation patterns `<(strong|b)[^>]*>(.*?)</\1>` and
`<(em|i)[^>]*>(.*?)</\1>`: the first alternative is tried first, and the
backreference forces the matching closing tag. -/
def altStep (n1 n2 : List Char) (mk : List Char → List Char) (s : List Char) :
    Option (List Char × Nat) :=
  match tagPairStep n1 mk s with
  | some v => some v
  | none => tagPairStep n2 mk s

/-- Step function of `re.sub(r'<br[^>]*/?>', '\n', …)`; backtracking lets
`[^>]*` absorb the optional slash, so this is `<br` + non-`>` filler + `>`. -/
def brStep (s : List Char) : Option (List Char × Nat) :=
  match afterOpenTag ['b', 'r'] s with
  | some r => some (['\n'], s.length - r.length)
  | none => none

/-- `href=["\x27]([^"\x27]*)["\x27][^>]*>` at the start of `s`: returns the
captured link target and the text after the closing `>`. -/
def parseHrefAt (s : List Char) : Option (List Char × List Char) :=
  if ciPrefix ['h', 'r', 'e', 'f', '='] s then
    match s.drop 5 with
    | q :: rest =>
      if q = '\"' ∨ q = squote then
        let u := rest.takeWhile (fun c => ¬ (c = '\"' ∨ c = squote))
        match rest.drop u.length with
        | q2 :: r2 =>
          if q2 = '\"' ∨ q2 = squote then
            let b := r2.takeWhile (fun c => c ≠ '>')
            match r2.drop b.length with
            | gt :: r3 => if gt = '>' then some (u, r3) else none
            | [] => none
          else none
        | [] => none
      else none
    | [] => none
  else none

/-- Greedy `[^>]*` before `href=`: the regex engine backtracks from the
longest run, so the last parseable `href=` inside the non-`>` run wins. -/
def findLastHref : List Char → Option (List Char × List Char)
  | [] => none
  | c :: rest =>
    if c = '>' then none
    else
      match findLastHref rest with
      | some v => some v
      | none => parseHrefAt (c :: rest)

/-- Step function of
`re.sub(r'<a[^>]*href=["\x27]([^"\x27]*)["\x27][^>]*>(.*?)</a>', r'[\2](\1)', …)`. -/
def linkStep (s : List Char) : Option (List Char × Nat) :=
  if ciPrefix ['<', 'a'] s then
    match findLastHref (s.drop 2) with
    | some (u, afterGt) =>
      match ciSplitAtFirst ['<', '/', 'a', '>'] afterGt with
      | some (txt, r) =>
        some ('[' :: txt ++ ']' :: '(' :: u ++ [')'], s.length - r.length)
      | none => none
    | none => none
  else none

/-- Step function of the catch-all `re.sub(r'<[^>]+>', '', content)`: a match
needs a `<`, at least one non-`>` character, and a closing `>`. -/
def stripStep (s : List Char) : Option (List Char × Nat) :=
  match s with
  | [] => none
  | c :: rest =>
    if c = '<' then
      match rest with
      | [] => none
      | d :: _ =>
        if d = '>' then none
        else
          match findGt rest with
          | some r => some ([], s.length - r.length)
          | none => none
    else none

/-- Step function of Python `str.replace(pat, repl)` (all occurrences,
left to right, non-overlapping). -/
def replStep (pat repl : List Char) (s : List Char) : Option (List Char × Nat) :=
  if pat.isPrefixOf s then some (repl, pat.length) else none

/-- Step function of `re.sub(r'\n\n\n+', '\n\n', …)`: a run of three or more
newlines collapses to exactly two. -/
def nlStep (s : List Char) : Option (List Char × Nat) :=
  match s with
  | '\n' :: rest =>
    let run := rest.takeWhile (fun c => c = '\n')
    if 2 ≤ run.length then some (['\n', '\n'], 1 + run.length) else none
  | _ => none

/-- Step function of `re.sub(r'  +', ' ', …)`: a run of two or more spaces
collapses to one.  (`re.sub(r' +', ' ', …)` in the pandoc routine behaves
identically, since a lone space is replaced by itself.) -/
def spStep (s : List Char) : Option (List Char × Nat) :=
  match s with
  | ' ' :: rest =>
    let run := rest.takeWhile (fun c => c = ' ')
    if 1 ≤ run.length then some ([' '], 1 + run.length) else none
  | _ => none

/-- Step function of `re.sub(r'```javascript.*?```', '', …, DOTALL)` and its
`js` variant (`openPat` is matched case-sensitively; no IGNORECASE flag). -/
def fenceStep (openPat : List Char) (s : List Char) : Option (List Char × Nat) :=
  if openPat.isPrefixOf s then
    match splitAtFirst ['`', '`', '`'] (s.drop openPat.length) with
    | some (_, a) => some ([], s.length - a.length)
    | none => none
  else none

/-- Step function of `re.sub(r'```[^`]*function\(.*?```', '', …, DOTALL)`:
`function(` must occur in the backtick-free run after the opening fence, and
the lazy tail runs to the first following triple backtick. -/
def fenceFnStep (s : List Char) : Option (List Char × Nat) :=
  if List.isPrefixOf ['`', '`', '`'] s then
    let rest := s.drop 3
    let run := rest.takeWhile (fun c => c ≠ '`')
    if containsList "function(".data run then
      match splitAtFirst ['`', '`', '`'] (rest.drop run.length) with
      | some (_, a) => some ([], s.length - a.length)
      | none => none
    else none
  else none

/-- Python `str.replace(pat, repl)`. -/
def replaceAll (pat repl : List Char) (l : List Char) : List Char :=
  runScan (replStep pat repl) l

/-- The catch-all tag stripping pass `re.sub(r'<[^>]+>', '', content)`. -/
def stripTags (l : List Char) : List Char := runScan stripStep l

def subTagPair (name : List Char) (mk : List Char → List Char) (l : List Char) : List Char :=
  runScan (tagPairStep name mk) l

def subTagAlt (n1 n2 : List Char) (mk : List Char → List Char) (l : List Char) : List Char :=
  runScan (altStep n1 n2 mk) l

def collapseNl (l : List Char) : List Char := runScan nlStep l

def collapseSpaces (l : List Char) : List Char := runScan spStep l

/-- The six entity replacements of `_extract_with_simple`, in source order:
`&nbsp; &amp; &lt; &gt; &quot; &#39;`. -/
def decodeEntities (l : List Char) : List Char :=
  let c1 := replaceAll "&nbsp;".data [' '] l
  let c2 := replaceAll "&amp;".data ['&'] c1
  let c3 := replaceAll "&lt;".data ['<'] c2
  let c4 := replaceAll "&gt;".data ['>'] c3
  let c5 := replaceAll "&quot;".data ['\"'] c4
  replaceAll "&#39;".data [squote] c5

/-- `re.search(r'<title[^>]*>(.*?)</title>', html, IGNORECASE | DOTALL)`:
first match wins; returns the captured group. -/
def searchTitle : List Char → Option (List Char)
  | [] => none
  | c :: rest =>
    match afterOpenTag "title".data (c :: rest) with
    | some ao =>
      match ciSplitAtFirst "</title>".data ao with
      | some (g, _) => some g
      | none => searchTitle rest
    | none => searchTitle rest

/-! ## Data model -/

/-- The per-routine result dictionary (`content`, `title`, `processing_time`,
`success`, `error`, `method`).  The wall-clock processing time is modelled as
a rational number. -/
structure ConversionResult where
  content : Option String
  title : Option String
  processing_time : ℚ
  success : Bool
  error : Option String
  method : String
deriving DecidableEq, Repr

/-- Messages yielded by `_invoke`: `create_text_message` and
`create_json_message` (the structured output has keys `markdown`,
`conversion_info`, `title`). -/
inductive Message where
  | text (s : String)
  | json (markdown : String) (conversion_info : String) (title : String)
deriving DecidableEq, Repr

/-! ## The regex-only ("simple") routine, `_extract_with_simple` -/

/-- The content pipeline of `_extract_with_simple`, line by line from the
source: script/style removal, h1–h6, bold/italic, code/pre, links,
paragraphs, line breaks, list items, catch-all tag strip, entity decoding,
whitespace collapsing, final strip. -/
def simpleContent (html : String) : String :=
  let c0 := subTagPair "script".data (fun _ => []) html.data
  let c1 := subTagPair "style".data (fun _ => []) c0
  let c2 := subTagPair "h1".data (fun g => '#' :: ' ' :: g ++ ['\n']) c1
  let c3 := subTagPair "h2".data (fun g => "## ".data ++ g ++ ['\n']) c2
  let c4 := subTagPair "h3".data (fun g => "### ".data ++ g ++ ['\n']) c3
  let c5 := subTagPair "h4".data (fun g => "#### ".data ++ g ++ ['\n']) c4
  let c6 := subTagPair "h5".data (fun g => "##### ".data ++ g ++ ['\n']) c5
  let c7 := subTagPair "h6".data (fun g => "###### ".data ++ g ++ ['\n']) c6
  let c8 := subTagAlt "strong".data ['b'] (fun g => "**".data ++ g ++ "**".data) c7
  let c9 := subTagAlt "em".data ['i'] (fun g => '*' :: g ++ ['*']) c8
  let c10 := subTagPair "code".data (fun g => '`' :: g ++ ['`']) c9
  let c11 := subTagPair "pre".data (fun g => "```\n".data ++ g ++ "\n```\n".data) c10
  let c12 := runScan linkStep c11
  let c13 := subTagPair ['p'] (fun g => g ++ ['\n', '\n']) c12
  let c14 := runScan brStep c13
  let c15 := subTagPair "li".data (fun g => '-' :: ' ' :: g ++ ['\n']) c14
  let c16 := stripTags c15
  let c17 := decodeEntities c16
  let c18 := collapseNl c17
  let c19 := collapseSpaces c18
  pyStrip ⟨c19⟩

/-- `_extract_with_simple`: always succeeds in the model (its body is pure
text substitution); title from the first `<title[^>]*>(.*?)</title>` match,
stripped. -/
def simpleRoutine (t : ℚ) (html : String) : ConversionResult :=
  { content := some (simpleContent html)
    title := (searchTitle html.data).map (fun g => pyStrip ⟨g⟩)
    processing_time := t
    success := true
    error := none
    method := "simple" }

/-! ## The style-preserving ("markdownify") routine, `_extract_with_markdownify` -/

/-- The fixed list of script-like substrings of the markdownify
post-processing (`js_pattern in line`). -/
def mdJsPatterns : List String :=
  ["function(", "&&", "||", "===", "!==", "typeof", "undefined", ".prototype.",
   "return", "var ", "let ", "const ", "\x7d.bind(", ".call(", ".apply("]

/-- Does a line contain any of the fixed script-like substrings? -/
def hasJsPattern (line : String) : Bool :=
  mdJsPatterns.any (fun p => strContains line p)

/-- The line-by-line post-processing loop of `_extract_with_markdownify`:
a line containing a script-like substring, or longer than 500 characters, is
dropped and `skip_block` is set; a blank line resets `skip_block` (and is
kept); other lines are kept unless `skip_block` is set. -/
def mdCleanAux : Bool → List String → List String
  | _, [] => []
  | skip, line :: rest =>
    if hasJsPattern line then mdCleanAux true rest
    else if 500 < line.length then mdCleanAux true rest
    else if (pyStrip line).isEmpty then line :: mdCleanAux false rest
    else if skip then mdCleanAux skip rest
    else line :: mdCleanAux skip rest

/-- The markdownify line cleanup, starting with `skip_block = False`. -/
def mdCleanLines (lines : List String) : List String := mdCleanAux false lines

/-- Full post-processing of the markdownify conversion output: line cleanup,
removal of fenced `javascript`/`js`/`function(` blocks, newline collapsing. -/
def markdownifyClean (md : String) : String :=
  let r1 := String.intercalate "\n" (mdCleanLines (md.splitOn "\n"))
  let r2 := runScan (fenceStep "```javascript".data) r1.data
  let r3 := runScan (fenceStep "```js".data) r2
  let r4 := runScan fenceFnStep r3
  ⟨collapseNl r4⟩

/-- `_extract_with_markdownify`.  The external work (BeautifulSoup parse,
node removal, `markdownify(...)`) is the environment: `Except.ok (title, md)`
is the extracted title and raw conversion output, `Except.error e` a raised
exception with text `e`. -/
def markdownifyRoutine (env : Except String (Option String × String)) (t : ℚ) :
    ConversionResult :=
  match env with
  | .ok (title, md) =>
    { content := some (markdownifyClean md), title := title, processing_time := t,
      success := true, error := none, method := "markdownify" }
  | .error e =>
    { content := none, title := none, processing_time := 0,
      success := false, error := some e, method := "markdownify" }

/-! ## The content-extraction ("trafilatura") routine -/

/-- `_extract_with_trafilatura`.  `Except.ok (content, title)` is the result
of `trafilatura.extract` (which may itself be `None`) together with the
metadata-or-`<title>` title; `Except.error e` a raised exception. -/
def trafilaturaRoutine (env : Except String (Option String × Option String)) (t : ℚ) :
    ConversionResult :=
  match env with
  | .ok (content, title) =>
    { content := content, title := title, processing_time := t,
      success := true, error := none, method := "trafilatura" }
  | .error e =>
    { content := none, title := none, processing_time := 0,
      success := false, error := some e, method := "trafilatura" }

/-! ## The clean-text ("html2text") routine -/

/-- `_extract_with_html2text`: the converter output is returned unchanged. -/
def html2textRoutine (env : Except String (Option String × String)) (t : ℚ) :
    ConversionResult :=
  match env with
  | .ok (title, out) =>
    { content := some out, title := title, processing_time := t,
      success := true, error := none, method := "html2text" }
  | .error e =>
    { content := none, title := none, processing_time := 0,
      success := false, error := some e, method := "html2text" }

/-! ## The DOM-based ("beautifulsoup") routine -/

/-- Final whitespace cleanup of `_extract_with_beautifulsoup`:
`\n\n\n+` → `\n\n`, `'  +'` → `' '`, strip. -/
def bsClean (txt : String) : String :=
  pyStrip ⟨collapseSpaces (collapseNl txt.data)⟩

/-- `_extract_with_beautifulsoup`: the tree transformation is the
environment (`Except.ok (title, txt)` is the title and the combined text
after in-place node replacement), the final regex cleanup is modelled. -/
def beautifulsoupRoutine (env : Except String (Option String × String)) (t : ℚ) :
    ConversionResult :=
  match env with
  | .ok (title, txt) =>
    { content := some (bsClean txt), title := title, processing_time := t,
      success := true, error := none, method := "beautifulsoup" }
  | .error e =>
    { content := none, title := none, processing_time := 0,
      success := false, error := some e, method := "beautifulsoup" }

/-! ## The universal-document ("pandoc") routine, `_extract_with_pandoc` -/

/-- Python `str.splitlines()`, modelled on `\n` boundaries. -/
def pySplitlines (s : String) : List String :=
  let p := s.splitOn "\n"
  if p.getLastD "" = "" then p.dropLast else p

/-- The fallback extraction: non-blank stripped lines of the tag-stripped
plain text (`soup.get_text()`), first 50 of them, joined by blank lines. -/
def fallbackContent (g : String) : String :=
  String.intercalate "\n\n"
    ((((pySplitlines g).map pyStrip).filter (fun l => ¬ l.isEmpty)).take 50)

/-- First line pass of the pandoc post-processing: drop pure-`\` lines,
right-strip spaces/backslashes, and append a blank line only after a
non-blank one. -/
def pandocStep1 (acc : List String) : List String → List String
  | [] => acc
  | line :: rest =>
    if pyStrip line = "\\" then pandocStep1 acc rest
    else
      let cl := rstripSB line
      if (pyStrip cl).isEmpty then
        if (!acc.isEmpty) && !(pyStrip (acc.getLastD "")).isEmpty then
          pandocStep1 (acc ++ [""]) rest
        else pandocStep1 acc rest
      else pandocStep1 (acc ++ [cl]) rest

/-- Second line pass: skip an empty line following an empty line. -/
def pandocStep2 (prevEmpty : Bool) : List String → List String
  | [] => []
  | line :: rest =>
    let isEmp := (pyStrip line).isEmpty
    if isEmp && prevEmpty then pandocStep2 prevEmpty rest
    else line :: pandocStep2 isEmp rest

/-- Post-processing of a successful pandoc conversion (source lines 266-303). -/
def pandocClean (md : String) : String :=
  let lines := md.splitOn "\n"
  let cleaned := pandocStep1 [] lines
  let final := pandocStep2 false cleaned
  let j := String.intercalate "\n" final
  let r1 := replaceAll ['\\', '\n'] ['\n'] j.data
  let r2 := replaceAll ['\\', ' '] [' '] r1
  let r3 := collapseSpaces r2
  ⟨collapseNl r3⟩

/-- External interactions of one `_extract_with_pandoc` call.
`findTitle` is the BeautifulSoup title parse; `fileWrite` the creation of and
write to the named temporary file (`Except.error` = `temp_file.write` raising
after the file exists on disk); `conv` the `pypandoc.convert_file` call;
`unlinkS` / `unlinkF` the outcomes of the `os.unlink` calls on the success
path and in the fallback handler (`none` = success, `some e` = raising with
text `e`); `getText` the `soup.get_text()` value used by the fallback. -/
structure PandocEnv where
  findTitle : Except String (Option String)
  fileWrite : Except String Unit
  conv : Except String String
  unlinkS : Option String
  unlinkF : Option String
  getText : String
  t : ℚ

/-- The fallback branch of `_extract_with_pandoc` (inner `except`): basic
text extraction, `success=True`, `method="pandoc_fallback"`, and a
best-effort `os.unlink` whose failure is swallowed.  The returned `Bool` is
true iff the temporary file is left on disk. -/
def pandocFallback (env : PandocEnv) (title : Option String) (msg : String) :
    ConversionResult × Bool :=
  ({ content := some (fallbackContent env.getText), title := title,
     processing_time := env.t, success := true,
     error := some ("Pandoc failed, used fallback: " ++ msg),
     method := "pandoc_fallback" },
   env.unlinkF.isSome)

/-- `_extract_with_pandoc`, returning the result dictionary together with a
flag telling whether the temporary file created for this request remains on
disk when the routine returns. -/
def pandocRoutine (env : PandocEnv) : ConversionResult × Bool :=
  match env.findTitle with
  | .error e =>
    ({ content := none, title := none, processing_time := 0,
       success := false, error := some e, method := "pandoc" }, false)
  | .ok title =>
    match env.fileWrite with
    | .error e =>
      ({ content := none, title := none, processing_time := 0,
         success := false, error := some e, method := "pandoc" }, true)
    | .ok _ =>
      match env.conv with
      | .ok md =>
        match env.unlinkS with
        | none =>
          ({ content := some (pandocClean md), title := title,
             processing_time := env.t, success := true, error := none,
             method := "pandoc" }, false)
        | some e1 => pandocFallback env title e1
      | .error e => pandocFallback env title e

/-! ## Response formatter and dispatcher, `_invoke` -/

/-- The three digits after the decimal point of `{x:.3f}`. -/
def pad3 (n : Nat) : String :=
  ⟨[Nat.digitChar (n / 100 % 10), Nat.digitChar (n / 10 % 10), Nat.digitChar (n % 10)]⟩

/-- Python `f"{t:.3f}"` on the (rational-modelled) processing time:
round to thousandths, print with exactly three decimals. -/
def fmt3 (q : ℚ) : String :=
  let m : ℤ := round (q * 1000)
  toString (m / 1000) ++ "." ++ pad3 (m % 1000).toNat

/-- Python `f"{n:,}"`: decimal digits with thousands separators. -/
def commaAux : List Char → List Char
  | [] => []
  | c :: rest =>
    if rest.length % 3 = 0 ∧ rest.length ≠ 0 then c :: ',' :: commaAux rest
    else c :: commaAux rest

def commaSep (n : Nat) : String := ⟨commaAux (Nat.toDigits 10 n)⟩

/-- `result.get('title') or 'No title found'`: Python `or` takes the default
for every falsy title, i.e. both `None` and the empty string. -/
def titleOrDefault (t : Option String) : String :=
  match t with
  | none => "No title found"
  | some s => if s = "" then "No title found" else s

/-- Number of `\n` occurrences in the content. -/
def countNl (c : String) : Nat := c.data.count '\n'

/-- The `conversion_info` block of `_invoke` (an f-string over
`result['method']`, the processing time, `len(content)` with thousands
separators, and `content.count('\n') + 1`). -/
def conversionInfo (r : ConversionResult) (c : String) : String :=
  "Method: " ++ r.method ++ "\nProcessing time: " ++ fmt3 r.processing_time ++
    "s\nOutput length: " ++ commaSep c.length ++ " characters\nLines: " ++
    toString (countNl c + 1)

/-- The success tail of `_invoke`: a JSON message with keys
`markdown` / `conversion_info` / `title`, then a combined text message. -/
def formatSuccess (r : ConversionResult) (c : String) : List Message :=
  let info := conversionInfo r c
  let title := titleOrDefault r.title
  [Message.json c info title,
   Message.text ("**Title:** " ++ title ++ "\n\n**Markdown:**\n" ++ c ++
     "\n\n**Conversion Info:**\n" ++ info)]

/-- Python `f"{x}"` on an optional string (`None` prints as `"None"`). -/
def optStr : Option String → String
  | none => "None"
  | some s => s

/-- The six conversion routines seen by the dispatcher.  `_invoke` is proved
for an arbitrary family, which is what makes "no routine is invoked"
expressible: the output is the same for every family. -/
structure Routines where
  trafilatura : String → ConversionResult
  markdownify : String → ConversionResult
  html2text : String → ConversionResult
  pandoc : String → ConversionResult
  beautifulsoup : String → ConversionResult
  simple : String → ConversionResult

/-- The `if/elif` method-selection chain of `_invoke`, in source order. -/
def dispatch (R : Routines) (m html : String) : Option ConversionResult :=
  if m = "trafilatura" then some (R.trafilatura html)
  else if m = "markdownify" then some (R.markdownify html)
  else if m = "html2text" then some (R.html2text html)
  else if m = "pandoc" then some (R.pandoc html)
  else if m = "beautifulsoup" then some (R.beautifulsoup html)
  else if m = "simple" then some (R.simple html)
  else none

/-- The literal error message for an unrecognized method name. -/
def unknownMsg (m : String) : String :=
  "Error: Unknown conversion method \x27" ++ m ++
    "\x27. Supported methods: trafilatura, markdownify, html2text, pandoc, beautifulsoup, simple"

/-- `_invoke`: empty-input check, method selection, error / empty-output
checks, then the response formatter.  Python truthiness: an empty
`html_content` string is falsy, and `result["content"]` is falsy when it is
`None` or empty. -/
def invoke (R : Routines) (html m : String) : List Message :=
  if html = "" then [Message.text "Error: No HTML content provided"]
  else
    match dispatch R m html with
    | none => [Message.text (unknownMsg m)]
    | some r =>
      if r.success = false then
        [Message.text ("Error converting HTML to markdown using " ++ m ++ ": " ++ optStr r.error)]
      else
        match r.content with
        | none => [Message.text ("Warning: " ++ m ++ " produced empty output")]
        | some c =>
          if c = "" then [Message.text ("Warning: " ++ m ++ " produced empty output")]
          else formatSuccess r c

/-! ## Concrete instances used in witnesses and counterexamples -/

/-- A concrete routine family (every method backed by the regex-only
routine), used to instantiate dispatcher theorems. -/
def constRoutines : Routines :=
  { trafilatura := simpleRoutine 0, markdownify := simpleRoutine 0,
    html2text := simpleRoutine 0, pandoc := simpleRoutine 0,
    beautifulsoup := simpleRoutine 0, simple := simpleRoutine 0 }

/-- A pandoc call whose external converter raises `"boom"`. -/
def pandocConvFailEnv : PandocEnv :=
  { findTitle := .ok (some "T"), fileWrite := .ok (), conv := .error "boom",
    unlinkS := none, unlinkF := none, getText := "a\nb", t := 0 }

/-- A pandoc call where writing the temporary file raises (for example a
`UnicodeEncodeError` on a lone surrogate in `html_content`). -/
def pandocWriteFailEnv : PandocEnv :=
  { findTitle := .ok none,
    fileWrite := .error "UnicodeEncodeError: surrogates not allowed",
    conv := .ok "", unlinkS := none, unlinkF := none, getText := "", t := 0 }

/-- A fully successful pandoc call. -/
def pandocOkEnv : PandocEnv :=
  { findTitle := .ok (some "T"), fileWrite := .ok (), conv := .ok "doc",
    unlinkS := none, unlinkF := none, getText := "g", t := 0 }

/-! ## Lemmas about the scanner combinator -/

theorem scanAux_skip (step : List Char → Option (List Char × Nat)) :
    ∀ (l : List Char) (n : Nat), scanAux step n l = scanAux step 0 (l.drop n) := by
  intro l
  induction l with
  | nil => intro n; cases n <;> simp [scanAux]
  | cons c rest ih =>
    intro n
    cases n with
    | zero => simp
    | succ k => simpa [scanAux] using ih k

theorem runScan_cons_none {step : List Char → Option (List Char × Nat)} {c : Char}
    {rest : List Char} (h : step (c :: rest) = none) :
    runScan step (c :: rest) = c :: runScan step rest := by
  simp [runScan, scanAux, h]

theorem runScan_cons_some {step : List Char → Option (List Char × Nat)} {c : Char}
    {rest r : List Char} {k : Nat} (h : step (c :: rest) = some (r, k)) :
    runScan step (c :: rest) = r ++ runScan step (rest.drop (k - 1)) := by
  simp [runScan, scanAux, h, scanAux_skip]

theorem runScan_id_of_no_match {step : List Char → Option (List Char × Nat)} :
    ∀ l : List Char, existsMatch step l = false → runScan step l = l := by
  intro l
  induction l with
  | nil => intro _; simp [runScan, scanAux]
  | cons c rest ih =>
    intro h
    simp only [existsMatch, Bool.or_eq_false_iff] at h
    obtain ⟨h1, h2⟩ := h
    cases hs : step (c :: rest) with
    | none => rw [runScan_cons_none hs, ih h2]
    | some v => rw [hs] at h1; simp at h1

theorem mem_of_mem_runScan_aux {step : List Char → Option (List Char × Nat)}
    (hstep : ∀ s r k, step s = some (r, k) → r = []) :
    ∀ (n : Nat) (l : List Char) (x : Char), l.length ≤ n → x ∈ runScan step l → x ∈ l := by
  intro n
  induction n with
  | zero =>
    intro l x hl hx
    cases l with
    | nil => simp [runScan, scanAux] at hx
    | cons c rest => simp at hl
  | succ m ih =>
    intro l x hl hx
    cases l with
    | nil => simp [runScan, scanAux] at hx
    | cons c rest =>
      cases hs : step (c :: rest) with
      | none =>
        rw [runScan_cons_none hs] at hx
        rcases List.mem_cons.mp hx with h | h
        · exact h ▸ List.mem_cons_self _ _
        · exact List.mem_cons_of_mem _ (ih rest x (by simpa using hl) h)
      | some v =>
        obtain ⟨r, k⟩ := v
        rw [runScan_cons_some hs, hstep _ _ _ hs] at hx
        simp only [List.nil_append] at hx
        have hlen : (rest.drop (k - 1)).length ≤ m := by
          have := List.length_drop (k - 1) rest
          simp at hl
          omega
        exact List.mem_cons_of_mem _
          (List.mem_of_mem_drop (ih (rest.drop (k - 1)) x hlen hx))

theorem mem_of_mem_runScan {step : List Char → Option (List Char × Nat)}
    (hstep : ∀ s r k, step s = some (r, k) → r = []) {l : List Char} {x : Char}
    (hx : x ∈ runScan step l) : x ∈ l :=
  mem_of_mem_runScan_aux hstep l.length l x le_rfl hx

/-! ## Lemmas about the catch-all tag-stripping pass -/

theorem findGt_eq_none {l : List Char} (h : '>' ∉ l) : findGt l = none := by
  induction l with
  | nil => simp [findGt]
  | cons c rest ih =>
    simp only [List.mem_cons, not_or] at h
    have hc : ¬ c = '>' := fun hc => h.1 hc.symm
    simp [findGt, hc, ih h.2]

theorem not_mem_of_findGt_eq_none : ∀ l : List Char, findGt l = none → '>' ∉ l := by
  intro l
  induction l with
  | nil => simp
  | cons c rest ih =>
    intro h
    by_cases hc : c = '>'
    · simp [findGt, hc] at h
    · simp [findGt, hc] at h
      simp [ih h]
      exact fun he => hc he.symm

theorem findGt_length : ∀ (l r : List Char), findGt l = some r → r.length < l.length := by
  intro l
  induction l with
  | nil => intro r h; simp [findGt] at h
  | cons c rest ih =>
    intro r h
    by_cases hc : c = '>'
    · simp [findGt, hc] at h
      simp [← h]
    · simp [findGt, hc] at h
      have := ih r h
      simp; omega

theorem stripStep_cons_of_ne {c : Char} (l : List Char) (hc : c ≠ '<') :
    stripStep (c :: l) = none := by
  simp [stripStep, hc]

theorem stripStep_shape : ∀ (s r : List Char) (k : Nat),
    stripStep s = some (r, k) → r = [] := by
  intro s r k h
  cases s with
  | nil => simp [stripStep] at h
  | cons c rest =>
    by_cases hc : c = '<'
    · cases rest with
      | nil => simp [stripStep, hc] at h
      | cons d rs =>
        by_cases hd : d = '>'
        · simp [stripStep, hc, hd] at h
        · cases hg : findGt (d :: rs) with
          | none => simp [stripStep, hc, hd, hg] at h
          | some r2 => simp [stripStep, hc, hd, hg] at h; exact h.1
    · simp [stripStep, hc] at h

theorem existsMatch_stripStep_of_no_gt : ∀ l : List Char, '>' ∉ l →
    existsMatch stripStep l = false := by
  intro l
  induction l with
  | nil => simp [existsMatch]
  | cons c rest ih =>
    intro h
    simp only [List.mem_cons, not_or] at h
    have hstep : stripStep (c :: rest) = none := by
      by_cases hc : c = '<'
      · cases rest with
        | nil => simp [stripStep, hc]
        | cons d rs =>
          have hd : d ≠ '>' := by
            intro hd
            exact h.2 (by simp [hd])
          simp [stripStep, hc, hd, findGt_eq_none h.2]
      · exact stripStep_cons_of_ne rest hc
    simp [existsMatch, hstep, ih h.2]

theorem stripTags_id_of_no_gt {l : List Char} (h : '>' ∉ l) : stripTags l = l :=
  runScan_id_of_no_match l (existsMatch_stripStep_of_no_gt l h)

theorem stripTags_noMatch_aux : ∀ (n : Nat) (l : List Char), l.length ≤ n →
    existsMatch stripStep (stripTags l) = false := by
  intro n
  induction n with
  | zero =>
    intro l hl
    cases l with
    | nil => simp [stripTags, runScan, scanAux, existsMatch]
    | cons c rest => simp at hl
  | succ m ih =>
    intro l hl
    cases l with
    | nil => simp [stripTags, runScan, scanAux, existsMatch]
    | cons c rest =>
      simp only [List.length_cons, Nat.succ_le_succ_iff] at hl
      cases hs : stripStep (c :: rest) with
      | some v =>
        obtain ⟨r, k⟩ := v
        have hr : r = [] := stripStep_shape _ _ _ hs
        subst hr
        have : stripTags (c :: rest) = stripTags (rest.drop (k - 1)) := by
          simpa [stripTags] using runScan_cons_some hs
        rw [this]
        exact ih _ (by have := List.length_drop (k - 1) rest; omega)
      | none =>
        have hrw : stripTags (c :: rest) = c :: stripTags rest := by
          simpa [stripTags] using runScan_cons_none hs
        rw [hrw]
        have htail : existsMatch stripStep (stripTags rest) = false := ih rest hl
        have hhead : stripStep (c :: stripTags rest) = none := by
          by_cases hc : c = '<'
          · subst hc
            cases rest with
            | nil => simp [stripTags, runScan, scanAux, stripStep]
            | cons d rs =>
              by_cases hd : d = '>'
              · subst hd
                have h1 : stripStep ('>' :: rs) = none :=
                  stripStep_cons_of_ne rs (by decide)
                rw [show stripTags ('>' :: rs) = '>' :: stripTags rs from
                  by simpa [stripTags] using runScan_cons_none h1]
                simp [stripStep]
              · have hg : findGt (d :: rs) = none := by
                  cases hg : findGt (d :: rs) with
                  | none => rfl
                  | some r2 => simp [stripStep, hd, hg] at hs
                have hnot : '>' ∉ d :: rs := not_mem_of_findGt_eq_none _ hg
                rw [stripTags_id_of_no_gt hnot]
                exact hs
          · exact stripStep_cons_of_ne _ hc
        simp [existsMatch, hhead, htail]

theorem stripTags_noMatch (l : List Char) :
    existsMatch stripStep (stripTags l) = false :=
  stripTags_noMatch_aux l.length l le_rfl

/-! ## Lemmas about `str.replace` (entity decoding) -/

theorem isPrefixOf_append_self : ∀ p s : List Char, p.isPrefixOf (p ++ s) = true := by
  intro p s
  induction p with
  | nil => simp [List.isPrefixOf]
  | cons a ps ih => simp [List.isPrefixOf, ih]

theorem replStep_none_of_head {p0 c : Char} (pt r l : List Char) (hc : c ≠ p0) :
    replStep (p0 :: pt) r (c :: l) = none := by
  have : (p0 :: pt).isPrefixOf (c :: l) = false := by
    simp [List.isPrefixOf]
    intro he
    exact absurd he.symm hc
  simp [replStep, this]

theorem existsMatch_replStep_false {p0 : Char} (pt r : List Char) :
    ∀ l : List Char, p0 ∉ l → existsMatch (replStep (p0 :: pt) r) l = false := by
  intro l
  induction l with
  | nil => intro _; simp [existsMatch]
  | cons c rest ih =>
    intro h
    simp only [List.mem_cons, not_or] at h
    have hc : c ≠ p0 := fun he => h.1 he.symm
    simp [existsMatch, replStep_none_of_head pt r rest hc, ih h.2]

theorem replaceAll_id_of_not_mem {p0 : Char} {pt r l : List Char} (h : p0 ∉ l) :
    replaceAll (p0 :: pt) r l = l :=
  runScan_id_of_no_match l (existsMatch_replStep_false pt r l h)

theorem replaceAll_append_left {p0 : Char} (pt r : List Char) :
    ∀ (a s : List Char), p0 ∉ a →
      replaceAll (p0 :: pt) r (a ++ s) = a ++ replaceAll (p0 :: pt) r s := by
  intro a
  induction a with
  | nil => intro s _; simp
  | cons c arest ih =>
    intro s h
    simp only [List.mem_cons, not_or] at h
    have hc : c ≠ p0 := fun he => h.1 he.symm
    have hstep := replStep_none_of_head (l := arest ++ s) pt r hc
    calc replaceAll (p0 :: pt) r (c :: (arest ++ s))
        = c :: replaceAll (p0 :: pt) r (arest ++ s) := runScan_cons_none hstep
      _ = c :: (arest ++ replaceAll (p0 :: pt) r s) := by rw [ih s h.2]

theorem replaceAll_cons_match {p0 : Char} (pt r s : List Char) :
    replaceAll (p0 :: pt) r ((p0 :: pt) ++ s) = r ++ replaceAll (p0 :: pt) r s := by
  have hstep : replStep (p0 :: pt) r ((p0 :: pt) ++ s) =
      some (r, (p0 :: pt).length) := by
    simp [replStep, isPrefixOf_append_self]
  have h2 := runScan_cons_some hstep
  simp only [List.append_eq, List.cons_append] at h2 ⊢
  rw [replaceAll, h2]
  simp [List.drop_left, replaceAll]

/-- `str.replace` on `a ++ p0 :: (m ++ b)` where the pattern occurs nowhere:
the single `p0` does not start an occurrence, and `p0` is absent elsewhere. -/
theorem replaceAll_skip_seg {p0 : Char} (pt r : List Char) {a m b : List Char}
    (ha : p0 ∉ a) (hm : p0 ∉ m) (hb : p0 ∉ b)
    (hstep : replStep (p0 :: pt) r (p0 :: (m ++ b)) = none) :
    replaceAll (p0 :: pt) r (a ++ p0 :: (m ++ b)) = a ++ p0 :: (m ++ b) := by
  rw [replaceAll_append_left pt r a (p0 :: (m ++ b)) ha]
  have h1 : replaceAll (p0 :: pt) r (p0 :: (m ++ b)) =
      p0 :: replaceAll (p0 :: pt) r (m ++ b) := runScan_cons_none hstep
  rw [h1, replaceAll_append_left pt r m b hm, replaceAll_id_of_not_mem hb]

/-- `str.replace` on `a ++ pat ++ (tail ++ b)` with exactly one occurrence. -/
theorem replaceAll_hit_seg {p0 : Char} (pt r a tail b : List Char)
    (ha : p0 ∉ a) (htail : p0 ∉ tail) (hb : p0 ∉ b) :
    replaceAll (p0 :: pt) r (a ++ ((p0 :: pt) ++ (tail ++ b))) =
      a ++ (r ++ (tail ++ b)) := by
  rw [replaceAll_append_left pt r a _ ha, replaceAll_cons_match,
    replaceAll_append_left pt r tail b htail, replaceAll_id_of_not_mem hb]

/-- Double decoding, `&lt;` case: `&amp;` is replaced before `&lt;`, so a
text-level occurrence of `&amp;lt;` decodes all the way to a raw `<`. -/
theorem decodeEntities_double_lt (a b : List Char) (ha : '&' ∉ a) (hb : '&' ∉ b) :
    decodeEntities (a ++ "&amp;lt;".data ++ b) = a ++ '<' :: b := by
  have hw : ('&' : Char) ∉ a ++ '<' :: b := by
    intro h
    rcases List.mem_append.mp h with h | h
    · exact ha h
    · rcases List.mem_cons.mp h with h | h
      · exact absurd h (by decide)
      · exact hb h
  have e0 : a ++ "&amp;lt;".data ++ b = a ++ '&' :: ("amp;lt;".data ++ b) := by
    rw [List.append_assoc]; rfl
  have s1 : replaceAll "&nbsp;".data [' '] (a ++ '&' :: ("amp;lt;".data ++ b)) =
      a ++ '&' :: ("amp;lt;".data ++ b) :=
    replaceAll_skip_seg "nbsp;".data [' '] ha (by decide) hb rfl
  have s2 : replaceAll "&amp;".data ['&'] (a ++ '&' :: ("amp;lt;".data ++ b)) =
      a ++ '&' :: ("lt;".data ++ b) :=
    replaceAll_hit_seg "amp;".data ['&'] a "lt;".data b ha (by decide) hb
  have s3 : replaceAll "&lt;".data ['<'] (a ++ '&' :: ("lt;".data ++ b)) =
      a ++ '<' :: b := by
    have h := replaceAll_hit_seg "lt;".data ['<'] a ([] : List Char) b ha (by simp) hb
    simpa using h
  have s4 : replaceAll "&gt;".data ['>'] (a ++ '<' :: b) = a ++ '<' :: b :=
    replaceAll_id_of_not_mem hw
  have s5 : replaceAll "&quot;".data ['\"'] (a ++ '<' :: b) = a ++ '<' :: b :=
    replaceAll_id_of_not_mem hw
  have s6 : replaceAll "&#39;".data [squote] (a ++ '<' :: b) = a ++ '<' :: b :=
    replaceAll_id_of_not_mem hw
  simp only [decodeEntities]
  rw [e0, s1, s2, s3, s4, s5, s6]

/-- Double decoding, `&gt;` case. -/
theorem decodeEntities_double_gt (a b : List Char) (ha : '&' ∉ a) (hb : '&' ∉ b) :
    decodeEntities (a ++ "&amp;gt;".data ++ b) = a ++ '>' :: b := by
  have hw : ('&' : Char) ∉ a ++ '>' :: b := by
    intro h
    rcases List.mem_append.mp h with h | h
    · exact ha h
    · rcases List.mem_cons.mp h with h | h
      · exact absurd h (by decide)
      · exact hb h
  have e0 : a ++ "&amp;gt;".data ++ b = a ++ '&' :: ("amp;gt;".data ++ b) := by
    rw [List.append_assoc]; rfl
  have s1 : replaceAll "&nbsp;".data [' '] (a ++ '&' :: ("amp;gt;".data ++ b)) =
      a ++ '&' :: ("amp;gt;".data ++ b) :=
    replaceAll_skip_seg "nbsp;".data [' '] ha (by decide) hb rfl
  have s2 : replaceAll "&amp;".data ['&'] (a ++ '&' :: ("amp;gt;".data ++ b)) =
      a ++ '&' :: ("gt;".data ++ b) :=
    replaceAll_hit_seg "amp;".data ['&'] a "gt;".data b ha (by decide) hb
  have s3 : replaceAll "&lt;".data ['<'] (a ++ '&' :: ("gt;".data ++ b)) =
      a ++ '&' :: ("gt;".data ++ b) :=
    replaceAll_skip_seg "lt;".data ['<'] ha (by decide) hb rfl
  have s4 : replaceAll "&gt;".data ['>'] (a ++ '&' :: ("gt;".data ++ b)) =
      a ++ '>' :: b := by
    have h := replaceAll_hit_seg "gt;".data ['>'] a ([] : List Char) b ha (by simp) hb
    simpa using h
  have s5 : replaceAll "&quot;".data ['\"'] (a ++ '>' :: b) = a ++ '>' :: b :=
    replaceAll_id_of_not_mem hw
  have s6 : replaceAll "&#39;".data [squote] (a ++ '>' :: b) = a ++ '>' :: b :=
    replaceAll_id_of_not_mem hw
  simp only [decodeEntities]
  rw [e0, s1, s2, s3, s4, s5, s6]

/-! ## Lemmas about the markdownify line cleanup -/

/-- Every line kept by the markdownify cleanup is free of the script-like
substrings and at most 500 characters long. -/
theorem mem_mdCleanAux : ∀ (xs : List String) (s : Bool) (x : String),
    x ∈ mdCleanAux s xs → hasJsPattern x = false ∧ x.length ≤ 500 := by
  intro xs
  induction xs with
  | nil => intro s x hx; simp [mdCleanAux] at hx
  | cons line rest ih =>
    intro s x hx
    by_cases h1 : hasJsPattern line
    · exact ih true x (by simpa [mdCleanAux, h1] using hx)
    · by_cases h2 : 500 < line.length
      · exact ih true x (by simpa [mdCleanAux, h1, h2] using hx)
      · by_cases h3 : (pyStrip line).isEmpty
        · rw [show mdCleanAux s (line :: rest) = line :: mdCleanAux false rest by
            simp [mdCleanAux, h1, h2, h3]] at hx
          rcases List.mem_cons.mp hx with h | h
          · subst h
            exact ⟨by simpa using h1, by omega⟩
          · exact ih false x h
        · by_cases h4 : s
          · exact ih s x (by simpa [mdCleanAux, h1, h2, h3, h4] using hx)
          · rw [show mdCleanAux s (line :: rest) = line :: mdCleanAux s rest by
              simp [mdCleanAux, h1, h2, h3, h4]] at hx
            rcases List.mem_cons.mp hx with h | h
            · subst h
              exact ⟨by simpa using h1, by omega⟩
            · exact ih s x h

/-- Whatever precedes it and whatever the skip state, a `Safe content` line
that follows a dropped script line and a blank line is kept. -/
theorem safe_content_mem : ∀ (pre : List String) (s : Bool) (l : String)
    (post : List String), hasJsPattern l = true →
    "Safe content" ∈ mdCleanAux s (pre ++ l :: "" :: "Safe content" :: post) := by
  intro pre
  induction pre with
  | nil =>
    intro s l post hl
    have e1 : hasJsPattern "" = false := by decide
    have e2 : hasJsPattern "Safe content" = false := by decide
    have e3 : ((pyStrip "").isEmpty : Bool) = true := by decide
    have e4 : ((pyStrip "Safe content").isEmpty : Bool) = false := by decide
    have e5 : ¬ (500 < "Safe content".length) := by decide
    have e6 : ¬ (500 < "".length) := by decide
    simp only [List.nil_append]
    rw [show mdCleanAux s (l :: "" :: "Safe content" :: post) =
        mdCleanAux true ("" :: "Safe content" :: post) by simp [mdCleanAux, hl]]
    simp [mdCleanAux, e1, e2, e3, e4, e5, e6]
  | cons x pre ih =>
    intro s l post hl
    simp only [List.cons_append]
    by_cases h1 : hasJsPattern x
    · rw [show mdCleanAux s (x :: (pre ++ l :: "" :: "Safe content" :: post)) =
          mdCleanAux true (pre ++ l :: "" :: "Safe content" :: post) by
        simp [mdCleanAux, h1]]
      exact ih true l post hl
    · by_cases h2 : 500 < x.length
      · rw [show mdCleanAux s (x :: (pre ++ l :: "" :: "Safe content" :: post)) =
            mdCleanAux true (pre ++ l :: "" :: "Safe content" :: post) by
          simp [mdCleanAux, h1, h2]]
        exact ih true l post hl
      · by_cases h3 : (pyStrip x).isEmpty
        · rw [show mdCleanAux s (x :: (pre ++ l :: "" :: "Safe content" :: post)) =
              x :: mdCleanAux false (pre ++ l :: "" :: "Safe content" :: post) by
            simp [mdCleanAux, h1, h2, h3]]
          exact List.mem_cons_of_mem _ (ih false l post hl)
        · by_cases h4 : s
          · rw [show mdCleanAux s (x :: (pre ++ l :: "" :: "Safe content" :: post)) =
                mdCleanAux s (pre ++ l :: "" :: "Safe content" :: post) by
              simp [mdCleanAux, h1, h2, h3, h4]]
            exact ih s l post hl
          · rw [show mdCleanAux s (x :: (pre ++ l :: "" :: "Safe content" :: post)) =
                x :: mdCleanAux s (pre ++ l :: "" :: "Safe content" :: post) by
              simp [mdCleanAux, h1, h2, h3, h4]]
            exact List.mem_cons_of_mem _ (ih s l post hl)

/-! ## Lemmas about substring containment -/

theorem containsList_append_right {pat : List Char} :
    ∀ (a b : List Char), containsList pat b = true → containsList pat (a ++ b) = true := by
  intro a
  induction a with
  | nil => intro b h; simpa using h
  | cons c arest ih =>
    intro b h
    simp only [List.cons_append, containsList, Bool.or_eq_true]
    exact Or.inr (ih b h)

theorem strContains_unknownMsg (m name : String)
    (h : containsList name.data
      ("\x27. Supported methods: trafilatura, markdownify, html2text, pandoc, beautifulsoup, simple").data = true) :
    strContains (unknownMsg m) name = true := by
  unfold strContains unknownMsg
  rw [String.data_append]
  exact containsList_append_right _ _ h

/-! ## Claim theorems -/

/-- Claim C1: for every method name, if the `html_content` input is empty the
dispatcher returns the single literal error message
`"Error: No HTML content provided"`; the output does not depend on the
routine family, so no conversion routine is invoked. -/
theorem c1_empty_input (R : Routines) (html m : String) (h : html = "") :
    invoke R html m = [Message.text "Error: No HTML content provided"] := by
  subst h
  simp [invoke]

/-- Witness for C1 at a concrete routine family and method name. -/
theorem c1_empty_input_witness :
    invoke constRoutines "" "pandoc" = [Message.text "Error: No HTML content provided"] :=
  c1_empty_input constRoutines "" "pandoc" rfl

/-- Claim C2: for non-empty input and a method name outside the six
recognized values, the dispatcher returns the fixed error message naming all
six valid methods, independently of the routine family (so no routine is
invoked). -/
theorem c2_unknown_method (R : Routines) (html m : String) (hh : html ≠ "")
    (hm : m ∉ ["trafilatura", "markdownify", "html2text", "pandoc", "beautifulsoup", "simple"]) :
    invoke R html m = [Message.text (unknownMsg m)]
    ∧ strContains (unknownMsg m) "trafilatura" = true
    ∧ strContains (unknownMsg m) "markdownify" = true
    ∧ strContains (unknownMsg m) "html2text" = true
    ∧ strContains (unknownMsg m) "pandoc" = true
    ∧ strContains (unknownMsg m) "beautifulsoup" = true
    ∧ strContains (unknownMsg m) "simple" = true := by
  simp only [List.mem_cons, List.not_mem_nil, not_or, or_false] at hm
  obtain ⟨h1, h2, h3, h4, h5, h6⟩ := hm
  refine ⟨?_, ?_, ?_, ?_, ?_, ?_, ?_⟩
  · simp [invoke, dispatch, hh, h1, h2, h3, h4, h5, h6]
  all_goals exact strContains_unknownMsg m _ (by decide)

/-- Witness for C2 at a concrete unknown method name. -/
theorem c2_unknown_method_witness :
    invoke constRoutines "x" "magic" = [Message.text (unknownMsg "magic")]
    ∧ strContains (unknownMsg "magic") "trafilatura" = true
    ∧ strContains (unknownMsg "magic") "markdownify" = true
    ∧ strContains (unknownMsg "magic") "html2text" = true
    ∧ strContains (unknownMsg "magic") "pandoc" = true
    ∧ strContains (unknownMsg "magic") "beautifulsoup" = true
    ∧ strContains (unknownMsg "magic") "simple" = true :=
  c2_unknown_method constRoutines "x" "magic" (by decide) (by decide)

/-- Claim C5: in the markdownify line-by-line post-processing, lines
containing a script-like substring (such as `function(`) or longer than 500
characters are dropped (no kept line has either property), and skip mode is
cleared by the next blank line: a `Safe content` line that follows a dropped
`function(` line and a blank line is always kept. -/
theorem c5_markdownify_skip (pre post : List String) (l : String)
    (hl : strContains l "function(" = true) :
    hasJsPattern l = true
    ∧ "Safe content" ∈ mdCleanLines (pre ++ l :: "" :: "Safe content" :: post)
    ∧ ∀ x ∈ mdCleanLines (pre ++ l :: "" :: "Safe content" :: post),
        hasJsPattern x = false ∧ x.length ≤ 500 := by
  have hjs : hasJsPattern l = true := by
    unfold hasJsPattern
    rw [List.any_eq_true]
    exact ⟨"function(", by decide, hl⟩
  exact ⟨hjs, safe_content_mem pre false l post hjs,
    fun x hx => mem_mdCleanAux _ false x hx⟩

/-- Witness for C5 on a concrete line list. -/
theorem c5_markdownify_skip_witness :
    "Safe content" ∈ mdCleanLines (["intro"] ++ "x function( y" :: "" :: "Safe content" :: ["tail"]) :=
  (c5_markdownify_skip ["intro"] ["tail"] "x function( y" (by decide)).2.1

/-- Counterexample to C6 as stated: the regex-only routine is not
tag-artifact free on a second pass.  On input `&amp;amp;lt;` the first pass
yields `&amp;lt;` (no raw `<` or `>`), and a second pass on that output
yields the raw character `<`. -/
theorem c6_counterexample :
    simpleContent "&amp;amp;lt;" = "&amp;lt;"
    ∧ ('<' ∉ "&amp;lt;".data ∧ '>' ∉ "&amp;lt;".data)
    ∧ simpleContent "&amp;lt;" = "<"
    ∧ '<' ∈ "<".data := by decide

/-- Claim C6 (amended): the catch-all tag-stripping pass itself is
idempotent: its output contains no match of `<[^>]+>` anywhere, so applying
it a second time changes nothing.  (The full routine is not idempotent:
entity decoding can reintroduce raw `<`/`>`, see the counterexample.) -/
theorem c6_stripTags_idempotent (l : List Char) :
    stripTags (stripTags l) = stripTags l
    ∧ existsMatch stripStep (stripTags l) = false :=
  ⟨runScan_id_of_no_match _ (stripTags_noMatch l), stripTags_noMatch l⟩

/-- Claim C9: the six entity replacements run sequentially with `&amp;`
before `&lt;`/`&gt;`, so a text-level `&amp;lt;` decodes to a raw `<` and
`&amp;gt;` to a raw `>`; concretely the routine maps `x&amp;lt;y` to `x<y`
and `x&amp;gt;y` to `x>y`. -/
theorem c9_double_decode (a b : List Char) (ha : '&' ∉ a) (hb : '&' ∉ b) :
    decodeEntities (a ++ "&amp;lt;".data ++ b) = a ++ '<' :: b
    ∧ decodeEntities (a ++ "&amp;gt;".data ++ b) = a ++ '>' :: b
    ∧ simpleContent "x&amp;lt;y" = "x<y"
    ∧ simpleContent "x&amp;gt;y" = "x>y" :=
  ⟨decodeEntities_double_lt a b ha hb, decodeEntities_double_gt a b ha hb,
    by decide, by decide⟩

/-- Witness for C9 at concrete surrounding text. -/
theorem c9_double_decode_witness :
    decodeEntities ("u".data ++ "&amp;lt;".data ++ "v".data) = "u".data ++ '<' :: "v".data :=
  (c9_double_decode "u".data "v".data (by decide) (by decide)).1

/-- Claim C3: whenever the external converter call raises, the
universal-document routine returns `success=true` with a method name of
`"pandoc_fallback"` (the spec calls it `universalDocument_fallback`) ending
in the `_fallback` marker, an error field describing the fallback reason,
and content equal to the first 50 non-blank stripped lines of the
tag-stripped plain text joined by blank lines; this path never yields
`success=false`. -/
theorem c3_pandoc_fallback (env : PandocEnv) (e : String) (t0 : Option String)
    (h1 : env.findTitle = .ok t0) (h2 : env.fileWrite = .ok ())
    (h3 : env.conv = .error e) :
    (pandocRoutine env).1.success = true
    ∧ (pandocRoutine env).1.method = "pandoc_fallback"
    ∧ strEndsWith (pandocRoutine env).1.method "_fallback" = true
    ∧ (pandocRoutine env).1.error = some ("Pandoc failed, used fallback: " ++ e)
    ∧ (pandocRoutine env).1.content = some (fallbackContent env.getText) := by
  have hred : pandocRoutine env = pandocFallback env t0 e := by
    simp [pandocRoutine, h1, h2, h3]
  rw [hred]
  refine ⟨rfl, rfl, ?_, rfl, rfl⟩
  show strEndsWith "pandoc_fallback" "_fallback" = true
  decide

/-- Witness for C3 at a concrete failing-converter environment. -/
theorem c3_pandoc_fallback_witness :
    (pandocRoutine pandocConvFailEnv).1.success = true
    ∧ (pandocRoutine pandocConvFailEnv).1.method = "pandoc_fallback"
    ∧ strEndsWith (pandocRoutine pandocConvFailEnv).1.method "_fallback" = true
    ∧ (pandocRoutine pandocConvFailEnv).1.error =
        some ("Pandoc failed, used fallback: " ++ "boom")
    ∧ (pandocRoutine pandocConvFailEnv).1.content =
        some (fallbackContent pandocConvFailEnv.getText) :=
  c3_pandoc_fallback pandocConvFailEnv "boom" (some "T") rfl rfl rfl

/-- Counterexample to C4 as stated: in the universal-document routine an
exception of the underlying converter call does not produce
`success=false` with the raw exception text; it produces the success=true
fallback with a prefixed error message. -/
theorem c4_counterexample :
    (pandocRoutine pandocConvFailEnv).1.success = true
    ∧ (pandocRoutine pandocConvFailEnv).1.error ≠ some "boom"
    ∧ (pandocRoutine pandocConvFailEnv).1.error =
        some "Pandoc failed, used fallback: boom" := by decide

/-- Claim C4 (amended): every routine satisfies the invariant
`success=false → content=None`; an exception of the underlying library call
yields `success=false` with the raw exception text for the trafilatura,
markdownify, html2text and beautifulsoup routines and for the outer failures
of the pandoc routine — but an exception of the pandoc converter call itself
instead yields the `success=true` fallback with a prefixed error text. -/
theorem c4_invariant_amended :
    (∀ (env : Except String (Option String × Option String)) (t : ℚ),
      ((trafilaturaRoutine env t).success = false →
        (trafilaturaRoutine env t).content = none)
      ∧ ∀ e, env = .error e →
          (trafilaturaRoutine env t).success = false
          ∧ (trafilaturaRoutine env t).error = some e
          ∧ (trafilaturaRoutine env t).content = none)
    ∧ (∀ (env : Except String (Option String × String)) (t : ℚ),
      ((markdownifyRoutine env t).success = false →
        (markdownifyRoutine env t).content = none)
      ∧ ∀ e, env = .error e →
          (markdownifyRoutine env t).success = false
          ∧ (markdownifyRoutine env t).error = some e
          ∧ (markdownifyRoutine env t).content = none)
    ∧ (∀ (env : Except String (Option String × String)) (t : ℚ),
      ((html2textRoutine env t).success = false →
        (html2textRoutine env t).content = none)
      ∧ ∀ e, env = .error e →
          (html2textRoutine env t).success = false
          ∧ (html2textRoutine env t).error = some e
          ∧ (html2textRoutine env t).content = none)
    ∧ (∀ (env : Except String (Option String × String)) (t : ℚ),
      ((beautifulsoupRoutine env t).success = false →
        (beautifulsoupRoutine env t).content = none)
      ∧ ∀ e, env = .error e →
          (beautifulsoupRoutine env t).success = false
          ∧ (beautifulsoupRoutine env t).error = some e
          ∧ (beautifulsoupRoutine env t).content = none)
    ∧ (∀ (t : ℚ) (html : String), (simpleRoutine t html).success = true)
    ∧ (∀ env : PandocEnv,
        ((pandocRoutine env).1.success = false → (pandocRoutine env).1.content = none)
        ∧ (∀ e, env.findTitle = .error e →
            (pandocRoutine env).1.success = false
            ∧ (pandocRoutine env).1.error = some e
            ∧ (pandocRoutine env).1.content = none)
        ∧ (∀ e t0, env.findTitle = .ok t0 → env.fileWrite = .error e →
            (pandocRoutine env).1.success = false
            ∧ (pandocRoutine env).1.error = some e
            ∧ (pandocRoutine env).1.content = none)
        ∧ (∀ e t0, env.findTitle = .ok t0 → env.fileWrite = .ok () →
            env.conv = .error e →
            (pandocRoutine env).1.success = true
            ∧ (pandocRoutine env).1.error =
                some ("Pandoc failed, used fallback: " ++ e))) := by
  refine ⟨?_, ?_, ?_, ?_, ?_, ?_⟩
  · intro env t
    cases env <;> simp [trafilaturaRoutine]
  · intro env t
    cases env <;> simp [markdownifyRoutine]
  · intro env t
    cases env <;> simp [html2textRoutine]
  · intro env t
    cases env <;> simp [beautifulsoupRoutine]
  · intro t html
    simp [simpleRoutine]
  · intro env
    obtain ⟨ft, fw, cv, us, uf, g, t⟩ := env
    refine ⟨?_, ?_, ?_, ?_⟩
    · cases ft <;> cases fw <;> cases cv <;> cases us <;>
        simp [pandocRoutine, pandocFallback]
    · intro e he
      subst he
      simp [pandocRoutine]
    · intro e t0 hft hfw
      subst hft
      subst hfw
      simp [pandocRoutine]
    · intro e t0 hft hfw hcv
      subst hft
      subst hfw
      subst hcv
      simp [pandocRoutine, pandocFallback]

/-- Witness for C4 (amended) at a concrete raising library call. -/
theorem c4_invariant_amended_witness :
    (trafilaturaRoutine (Except.error "X") 0).success = false
    ∧ (trafilaturaRoutine (Except.error "X") 0).error = some "X"
    ∧ (trafilaturaRoutine (Except.error "X") 0).content = none :=
  (c4_invariant_amended.1 (Except.error "X") 0).2 "X" rfl

/-- Counterexample to C7 as stated: if the write to the temporary file
raises after the file was created (for instance a `UnicodeEncodeError`), the
routine returns `success=false` through the outer handler and the temporary
file is left on disk. -/
theorem c7_counterexample :
    (pandocRoutine pandocWriteFailEnv).2 = true
    ∧ (pandocRoutine pandocWriteFailEnv).1.success = false := by decide

/-- Claim C7 (amended): the temporary file is removed on every exit path
where the temp-file write and the relevant `os.unlink` call succeed; a
failure before the file is created also leaves nothing on disk; and a failed
unlink in the fallback handler is silently swallowed (the routine still
returns the success=true fallback) but leaves the file behind. -/
theorem c7_tempfile_amended (env : PandocEnv) :
    (env.fileWrite = Except.ok () → env.unlinkS = none → env.unlinkF = none →
      (pandocRoutine env).2 = false)
    ∧ (∀ e, env.findTitle = Except.error e → (pandocRoutine env).2 = false)
    ∧ (∀ e uerr t0, env.findTitle = Except.ok t0 → env.fileWrite = Except.ok () →
        env.conv = Except.error e → env.unlinkF = some uerr →
        (pandocRoutine env).1.success = true ∧ (pandocRoutine env).2 = true) := by
  obtain ⟨ft, fw, cv, us, uf, g, t⟩ := env
  refine ⟨?_, ?_, ?_⟩
  · intro h1 h2 h3
    subst h1
    subst h2
    subst h3
    cases ft <;> cases cv <;> simp [pandocRoutine, pandocFallback]
  · intro e he
    subst he
    simp [pandocRoutine]
  · intro e uerr t0 hft hfw hcv huf
    subst hft
    subst hfw
    subst hcv
    subst huf
    simp [pandocRoutine, pandocFallback]

/-- Witness for C7 (amended) at a fully successful pandoc call. -/
theorem c7_tempfile_amended_witness : (pandocRoutine pandocOkEnv).2 = false :=
  (c7_tempfile_amended pandocOkEnv).1 rfl rfl rfl

/-- Claim C8: on a successful conversion with non-empty content the
formatter emits the structured and text messages whose info block reports
`len(content)` characters, `content.count('\n') + 1` lines, and the
processing time with exactly three digits after the decimal point. -/
theorem c8_formatter (R : Routines) (html m : String) (r : ConversionResult)
    (c : String) (hh : html ≠ "") (hd : dispatch R m html = some r)
    (hs : r.success = true) (hc : r.content = some c) (hne : c ≠ "") :
    invoke R html m = formatSuccess r c
    ∧ conversionInfo r c = "Method: " ++ r.method ++ "\nProcessing time: "
        ++ fmt3 r.processing_time ++ "s\nOutput length: " ++ commaSep c.length
        ++ " characters\nLines: " ++ toString (countNl c + 1)
    ∧ ∃ ip fp, fmt3 r.processing_time = ip ++ "." ++ fp ∧ fp.length = 3 := by
  refine ⟨?_, rfl, ?_⟩
  · simp [invoke, hh, hd, hs, hc, hne]
  · exact ⟨toString ((round (r.processing_time * 1000) : ℤ) / 1000),
      pad3 ((round (r.processing_time * 1000) : ℤ) % 1000).toNat, rfl, rfl⟩

/-- Witness for C8 on a concrete successful conversion. -/
theorem c8_formatter_witness :
    invoke constRoutines "<p>hi</p>" "simple" =
      formatSuccess (simpleRoutine 0 "<p>hi</p>") "hi"
    ∧ conversionInfo (simpleRoutine 0 "<p>hi</p>") "hi" =
        "Method: " ++ (simpleRoutine 0 "<p>hi</p>").method ++ "\nProcessing time: "
        ++ fmt3 (simpleRoutine 0 "<p>hi</p>").processing_time ++ "s\nOutput length: "
        ++ commaSep "hi".length ++ " characters\nLines: " ++ toString (countNl "hi" + 1)
    ∧ ∃ ip fp, fmt3 (simpleRoutine 0 "<p>hi</p>").processing_time = ip ++ "." ++ fp
        ∧ fp.length = 3 :=
  c8_formatter constRoutines "<p>hi</p>" "simple" (simpleRoutine 0 "<p>hi</p>") "hi"
    (by decide) (by decide) rfl (by decide) (by decide)

/-- Claim C10: the formatter falls back to `"No title found"` for every
falsy title — `None` and the empty string alike — so a document with an
empty `<title></title>` element is reported with the default title. -/
theorem c10_title_default (r : ConversionResult) (c : String) (R : Routines)
    (hR : R.simple = simpleRoutine 0) (hr : r.title = some "" ∨ r.title = none) :
    (formatSuccess r c).head? = some (Message.json c (conversionInfo r c) "No title found")
    ∧ (∀ s : String, s ≠ "" → titleOrDefault (some s) = s)
    ∧ (simpleRoutine 0 "<title></title>ok").title = some ""
    ∧ invoke R "<title></title>ok" "simple" =
        formatSuccess (simpleRoutine 0 "<title></title>ok") "ok"
    ∧ titleOrDefault (simpleRoutine 0 "<title></title>ok").title = "No title found" := by
  refine ⟨?_, fun s hs => by simp [titleOrDefault, hs], by decide, ?_, by decide⟩
  · rcases hr with h | h <;> simp [formatSuccess, titleOrDefault, h]
  · have hd : dispatch R "simple" "<title></title>ok" =
        some (simpleRoutine 0 "<title></title>ok") := by
      unfold dispatch
      rw [if_neg (by decide), if_neg (by decide), if_neg (by decide),
        if_neg (by decide), if_neg (by decide), if_pos rfl, hR]
    unfold invoke
    rw [if_neg (by decide), hd]
    have hs : (simpleRoutine 0 "<title></title>ok").success = true := rfl
    have hc : (simpleRoutine 0 "<title></title>ok").content = some "ok" := by decide
    have hne : ¬ ("ok" = "") := by decide
    simp [hs, hc, hne]

/-- Witness for C10 at a concrete result and routine family. -/
theorem c10_title_default_witness :
    invoke constRoutines "<title></title>ok" "simple" =
      formatSuccess (simpleRoutine 0 "<title></title>ok") "ok"
    ∧ titleOrDefault (simpleRoutine 0 "<title></title>ok").title = "No title found" :=
  ⟨(c10_title_default (simpleRoutine 0 "<title></title>ok") "ok" constRoutines rfl
      (Or.inl (by decide))).2.2.2.1,
   (c10_title_default (simpleRoutine 0 "<title></title>ok") "ok" constRoutines rfl
      (Or.inl (by decide))).2.2.2.2⟩

end H2M
